import Mathlib

/-!
# Verification of the tenant-scoped analytics aggregation engine

Shallow embedding of the analytics subsystem of the `ai-marketing-agent`
repository: the event-recording endpoint (`POST /api/settings/analytics`),
its zod input schema (`eventSchema`), the aggregate updater
(`updatePostAnalytics`), the analytics-overview query
(`GET /api/settings/analytics`) and the top-posts query
(`GET /api/settings/analytics/top-posts`), over the `post_analytics`,
`analytics_events`, `tenant_users`, `scheduled_posts` and `content_items`
tables of the migration.

Numbers: database INTEGER counters are embedded as `Int`; the DECIMAL(5,2)
rate columns and JavaScript arithmetic on them are embedded as `ℚ`.
`Number(x.toFixed(2))` is embedded as exact round-half-up to two decimals.
Opaque, uninterpreted JSON payloads (`event_metadata`) are omitted.
-/

namespace AIMarketing

/-- Two-decimal rounding (round half up), modelling `Number(x.toFixed(2))`
as applied by the source to engagement/click-through rates and averages. -/
def round2 (q : ℚ) : ℚ := ((Int.floor (q * 100 + 1/2) : ℤ) : ℚ) / 100

/-- One row of the `post_analytics` table (migration: aggregated analytics,
natural key UNIQUE(tenant_id, scheduled_post_id, platform, date)). -/
structure PostAnalyticsRow where
  id : Nat
  tenant_id : String
  content_item_id : Option String
  scheduled_post_id : String
  platform : String
  views : Int
  likes : Int
  comments : Int
  shares : Int
  clicks : Int
  impressions : Int
  engagement_rate : ℚ
  click_through_rate : ℚ
  unique_viewers : Int
  reach : Int
  date : String
  deriving DecidableEq, Repr

/-- One row of the `analytics_events` append-only log. -/
structure AnalyticsEventRow where
  id : Nat
  tenant_id : String
  content_item_id : Option String
  scheduled_post_id : Option String
  event_type : String
  platform : String
  event_value : Int
  external_event_id : Option String
  deriving DecidableEq, Repr

/-- The fields of a `scheduled_posts` row read by this subsystem. -/
structure ScheduledPostRow where
  id : String
  content_item_id : Option String
  scheduled_at : String
  published_at : Option String
  status : String
  deriving DecidableEq, Repr

/-- The fields of a `content_items` row read by this subsystem. -/
structure ContentItemRow where
  id : String
  type : String
  text_content : String
  platform : String
  created_at : String
  deriving DecidableEq, Repr

/-- The `post_analytics` table together with the id supply for inserts. -/
structure AggStore where
  rows : List PostAnalyticsRow
  nextId : Nat
  deriving DecidableEq, Repr

/-- `supabase ... .single()`: the data is the row when the filter matched
exactly one row; on zero or several matches the call errors and the
destructured `data` is null. -/
def singleMatch (p : α → Bool) (l : List α) : Option α :=
  match l.filter p with
  | [r] => some r
  | _ => none

/-- The natural-key filter of `updatePostAnalytics`:
`.eq('tenant_id', tenantId).eq('scheduled_post_id', scheduledPostId)`
`.eq('platform', platform).eq('date', today)`. -/
def matchesNaturalKey (tenantId scheduledPostId platform today : String)
    (r : PostAnalyticsRow) : Bool :=
  r.tenant_id == tenantId && r.scheduled_post_id == scheduledPostId &&
    r.platform == platform && r.date == today

/-- The `updates` object of `updatePostAnalytics`: at most one raw counter
is assigned by the `switch`. -/
structure CounterUpdates where
  views : Option Int := none
  likes : Option Int := none
  comments : Option Int := none
  shares : Option Int := none
  clicks : Option Int := none
  impressions : Option Int := none
  deriving DecidableEq, Repr

/-- The `switch (eventType)` of `updatePostAnalytics`: set the one counter
matching the event type to `(existing?.<counter> || 0) + eventValue`.
A `switch` with no matching case assigns nothing. -/
def computeUpdates (existing : Option PostAnalyticsRow) (eventType : String)
    (eventValue : Int) : CounterUpdates :=
  match eventType with
  | "view" => { views := some ((existing.map (·.views)).getD 0 + eventValue) }
  | "like" => { likes := some ((existing.map (·.likes)).getD 0 + eventValue) }
  | "comment" => { comments := some ((existing.map (·.comments)).getD 0 + eventValue) }
  | "share" => { shares := some ((existing.map (·.shares)).getD 0 + eventValue) }
  | "click" => { clicks := some ((existing.map (·.clicks)).getD 0 + eventValue) }
  | "impression" => { impressions := some ((existing.map (·.impressions)).getD 0 + eventValue) }
  | _ => {}

/-- Object spread `{ ...r, ...updates }` for the counter fields. -/
def applyUpdates (u : CounterUpdates) (r : PostAnalyticsRow) : PostAnalyticsRow :=
  { r with
    views := u.views.getD r.views
    likes := u.likes.getD r.likes
    comments := u.comments.getD r.comments
    shares := u.shares.getD r.shares
    clicks := u.clicks.getD r.clicks
    impressions := u.impressions.getD r.impressions }

/-- Read phase of `updatePostAnalytics`: fetch the current aggregate row for
the natural key with `.single()`. -/
def readAggregate (tenantId scheduledPostId platform today : String)
    (rows : List PostAnalyticsRow) : Option PostAnalyticsRow :=
  singleMatch (matchesNaturalKey tenantId scheduledPostId platform today) rows

/-- Write phase of `updatePostAnalytics`, applied to a previously read
`existing` row. Existing row: recompute both rates from the post-increment
counters and update the row by id. No row: look up `content_item_id` from
`scheduled_posts` and insert a new row with DB-default zero counters, the
single incremented counter, today's date and both rates `0`. -/
def writeAggregate (scheduledPosts : List ScheduledPostRow)
    (tenantId scheduledPostId platform eventType : String) (eventValue : Int)
    (today : String) (existing : Option PostAnalyticsRow) (store : AggStore) :
    AggStore :=
  let updates := computeUpdates existing eventType eventValue
  match existing with
  | some ex =>
    let newTotals := applyUpdates updates ex
    let totalEngagement : ℚ := ((newTotals.likes + newTotals.comments + newTotals.shares : Int) : ℚ)
    let engagementRate : ℚ :=
      if newTotals.impressions > 0 then
        totalEngagement / ((newTotals.impressions : Int) : ℚ) * 100
      else 0
    let ctr : ℚ :=
      if newTotals.impressions > 0 then
        ((newTotals.clicks : Int) : ℚ) / ((newTotals.impressions : Int) : ℚ) * 100
      else 0
    { store with
      rows := store.rows.map fun r =>
        if r.id == ex.id then
          { applyUpdates updates r with
            engagement_rate := round2 engagementRate
            click_through_rate := round2 ctr }
        else r }
  | none =>
    let scheduledPost := singleMatch (fun sp => sp.id == scheduledPostId) scheduledPosts
    let newRow : PostAnalyticsRow :=
      applyUpdates updates
        { id := store.nextId
          tenant_id := tenantId
          content_item_id := scheduledPost.bind (·.content_item_id)
          scheduled_post_id := scheduledPostId
          platform := platform
          views := 0, likes := 0, comments := 0, shares := 0
          clicks := 0, impressions := 0
          engagement_rate := 0
          click_through_rate := 0
          unique_viewers := 0, reach := 0
          date := today }
    { rows := store.rows ++ [newRow], nextId := store.nextId + 1 }

/-- `updatePostAnalytics`: the sequential read-then-write round trip of the
source (`today` stands for `new Date().toISOString().split('T')[0]`, the
UTC calendar date at ingestion time). -/
def updatePostAnalytics (scheduledPosts : List ScheduledPostRow)
    (tenantId scheduledPostId platform eventType : String) (eventValue : Int)
    (today : String) (store : AggStore) : AggStore :=
  writeAggregate scheduledPosts tenantId scheduledPostId platform eventType
    eventValue today
    (readAggregate tenantId scheduledPostId platform today store.rows) store

/-! ## Event recording endpoint (`POST /api/settings/analytics`) -/

/-- Hexadecimal digit test used by the uuid shape check. -/
def isHexDigit (c : Char) : Bool :=
  c.isDigit || ('a' ≤ c && c ≤ 'f') || ('A' ≤ c && c ≤ 'F')

/-- Split a character list at dashes (the grouping the uuid regex
inspects). -/
def splitDashes : List Char → List (List Char)
  | [] => [[]]
  | c :: rest =>
    let r := splitDashes rest
    if c = '-' then [] :: r
    else
      match r with
      | g :: gs => (c :: g) :: gs
      | [] => [[c]]

/-- Shape check for `z.string().uuid()`: five dash-separated groups of hex
digits with lengths 8-4-4-4-12. -/
def isUuid (s : String) : Bool :=
  match splitDashes s.toList with
  | [a, b, c, d, e] =>
    a.length == 8 && b.length == 4 && c.length == 4 && d.length == 4 &&
      e.length == 12 && (a ++ b ++ c ++ d ++ e).all isHexDigit
  | _ => false

/-- The closed `z.enum` of event types in `eventSchema`. -/
def eventTypeEnum : List String :=
  ["view", "like", "comment", "share", "click", "impression"]

/-- The closed platform set used elsewhere in the repository
(`z.enum` of the platform schemas; migration comments). The analytics
`eventSchema` itself types `platform` as a plain `z.string()`. -/
def knownPlatforms : List String :=
  ["instagram", "facebook", "tiktok", "linkedin", "youtube", "google_ads"]

/-- A request body for the analytics event endpoint, with the JSON field
types the handler can receive (numbers embedded as integers; the opaque
`eventMetadata` object is omitted). -/
structure RawEvent where
  tenantId : String
  contentItemId : Option String
  scheduledPostId : Option String
  eventType : String
  platform : String
  eventValue : Option Int
  externalEventId : Option String
  deriving DecidableEq, Repr

/-- `validation.data` after a successful `eventSchema.safeParse`. -/
structure ParsedEvent where
  tenantId : String
  contentItemId : Option String
  scheduledPostId : Option String
  eventType : String
  platform : String
  eventValue : Int
  externalEventId : Option String
  deriving DecidableEq, Repr

/-- `eventSchema.safeParse`: `tenantId` must be a uuid, the optional
`contentItemId`/`scheduledPostId` must be uuids when present, `eventType`
must belong to the closed enum; `platform` is any string and `eventValue`
is any number, defaulting to `1` when absent. -/
def eventSchemaSafeParse (b : RawEvent) : Option ParsedEvent :=
  if isUuid b.tenantId &&
      (match b.contentItemId with | none => true | some s => isUuid s) &&
      (match b.scheduledPostId with | none => true | some s => isUuid s) &&
      eventTypeEnum.contains b.eventType then
    some { tenantId := b.tenantId
           contentItemId := b.contentItemId
           scheduledPostId := b.scheduledPostId
           eventType := b.eventType
           platform := b.platform
           eventValue := b.eventValue.getD 1
           externalEventId := b.externalEventId }
  else none

/-- The tables touched by the analytics subsystem, plus id supplies.
`tenant_users` rows are (tenant_id, user_id) pairs. -/
structure AppState where
  tenant_users : List (String × String)
  analytics_events : List AnalyticsEventRow
  scheduled_posts : List ScheduledPostRow
  content_items : List ContentItemRow
  post_analytics : AggStore
  nextEventId : Nat
  deriving DecidableEq, Repr

/-- Responses of the POST handler (authentication, an external concern,
is not embedded: the caller's user id is a parameter). -/
inductive PostResponse where
  /-- 400: `eventSchema.safeParse` failed. -/
  | invalidRequest : PostResponse
  /-- 403: no `tenant_users` row for (tenantId, userId). -/
  | accessDenied : PostResponse
  /-- 200: `{ success: true, event }`. -/
  | success (event : AnalyticsEventRow) : PostResponse
  deriving DecidableEq, Repr

/-- The POST handler: validate, check tenant membership, insert the event
row, and — only when `scheduledPostId` is present — run
`updatePostAnalytics`. `today` stands for the UTC calendar date at
ingestion time. -/
def postAnalyticsEvent (userId today : String) (body : RawEvent)
    (s : AppState) : AppState × PostResponse :=
  match eventSchemaSafeParse body with
  | none => (s, .invalidRequest)
  | some d =>
    match singleMatch (fun tu => tu.1 == d.tenantId && tu.2 == userId)
        s.tenant_users with
    | none => (s, .accessDenied)
    | some _ =>
      let ev : AnalyticsEventRow :=
        { id := s.nextEventId
          tenant_id := d.tenantId
          content_item_id := d.contentItemId
          scheduled_post_id := d.scheduledPostId
          event_type := d.eventType
          platform := d.platform
          event_value := d.eventValue
          external_event_id := d.externalEventId }
      let s1 := { s with
        analytics_events := s.analytics_events ++ [ev]
        nextEventId := s.nextEventId + 1 }
      match d.scheduledPostId with
      | some spId =>
        ({ s1 with post_analytics :=
            (updatePostAnalytics s1.scheduled_posts d.tenantId spId d.platform
              d.eventType d.eventValue today s1.post_analytics) },
          .success ev)
      | none => (s1, .success ev)

/-! ## Analytics overview (`GET /api/settings/analytics`) -/

/-- Query parameters of the overview endpoint (`tenantId` required). -/
structure OverviewFilters where
  tenantId : String
  startDate : Option String
  endDate : Option String
  platform : Option String
  deriving DecidableEq, Repr

/-- The row filter built from the overview query parameters:
`.eq('tenant_id', ...)` plus optional `.gte('date', ...)`,
`.lte('date', ...)` and `.eq('platform', ...)`. -/
def overviewRowFilter (f : OverviewFilters) (r : PostAnalyticsRow) : Bool :=
  r.tenant_id == f.tenantId &&
    (match f.startDate with | none => true | some d => decide (d ≤ r.date)) &&
    (match f.endDate with | none => true | some d => decide (r.date ≤ d)) &&
    (match f.platform with | none => true | some p => r.platform == p)

/-- `.order('date', { ascending: false })`: date descending. -/
def dateGe (a b : PostAnalyticsRow) : Prop := b.date ≤ a.date

instance : DecidableRel dateGe := fun a b =>
  inferInstanceAs (Decidable (b.date ≤ a.date))

instance : IsTotal PostAnalyticsRow dateGe :=
  ⟨fun a b => le_total b.date a.date⟩

instance : IsTrans PostAnalyticsRow dateGe :=
  ⟨fun _ _ _ h h' => le_trans h' h⟩

/-- The `analytics` record set of the overview handler: filtered rows,
ordered by date descending. -/
def overviewQuery (f : OverviewFilters) (rows : List PostAnalyticsRow) :
    List PostAnalyticsRow :=
  (rows.filter (overviewRowFilter f)).insertionSort dateGe

/-- The accumulator of the totals `reduce`. -/
structure Totals where
  views : Int
  likes : Int
  comments : Int
  shares : Int
  clicks : Int
  impressions : Int
  reach : Int
  deriving DecidableEq, Repr

/-- The all-zero initial accumulator of the totals `reduce`. -/
def zeroTotals : Totals := ⟨0, 0, 0, 0, 0, 0, 0⟩

/-- One step of the totals `reduce`. -/
def addTotals (acc : Totals) (r : PostAnalyticsRow) : Totals :=
  { views := acc.views + r.views
    likes := acc.likes + r.likes
    comments := acc.comments + r.comments
    shares := acc.shares + r.shares
    clicks := acc.clicks + r.clicks
    impressions := acc.impressions + r.impressions
    reach := acc.reach + r.reach }

/-- The `averages` object of the overview response. -/
structure Averages where
  engagement_rate : ℚ
  click_through_rate : ℚ
  deriving DecidableEq, Repr

/-- One per-platform group of the overview response. -/
structure PlatformGroup where
  platform : String
  views : Int
  likes : Int
  comments : Int
  shares : Int
  clicks : Int
  impressions : Int
  posts_count : Nat
  deriving DecidableEq, Repr

/-- Add one record into its platform group, creating the zeroed group on
first sight of the platform (JS object keys in insertion order). -/
def addToGroups (groups : List PlatformGroup) (r : PostAnalyticsRow) :
    List PlatformGroup :=
  let groups' :=
    if groups.any (·.platform == r.platform) then groups
    else groups ++ [⟨r.platform, 0, 0, 0, 0, 0, 0, 0⟩]
  groups'.map fun g =>
    if g.platform == r.platform then
      { g with
        views := g.views + r.views
        likes := g.likes + r.likes
        comments := g.comments + r.comments
        shares := g.shares + r.shares
        clicks := g.clicks + r.clicks
        impressions := g.impressions + r.impressions
        posts_count := g.posts_count + 1 }
    else g

/-- The JSON body returned by the overview handler. -/
structure OverviewResult where
  totals : Totals
  averages : Averages
  by_platform : List PlatformGroup
  records : List PostAnalyticsRow
  deriving DecidableEq, Repr

/-- `GET /api/settings/analytics`: totals by `reduce`, averages as the
arithmetic mean of the stored per-row rates (guarded by a length check),
rounded to two decimals, and per-platform groups. -/
def getAnalyticsOverview (f : OverviewFilters)
    (rows : List PostAnalyticsRow) : OverviewResult :=
  let analytics := overviewQuery f rows
  let totals := analytics.foldl addTotals zeroTotals
  let avgEngagementRate : ℚ :=
    if analytics.length > 0 then
      analytics.foldl (fun sum r => sum + r.engagement_rate) 0 / analytics.length
    else 0
  let avgCTR : ℚ :=
    if analytics.length > 0 then
      analytics.foldl (fun sum r => sum + r.click_through_rate) 0 / analytics.length
    else 0
  let byPlatform := analytics.foldl addToGroups []
  { totals := totals
    averages := { engagement_rate := round2 avgEngagementRate
                  click_through_rate := round2 avgCTR }
    by_platform := byPlatform
    records := analytics }

/-! ## Top posts (`GET /api/settings/analytics/top-posts`) -/

/-- Query parameters of the top-posts endpoint; `metric` defaults to
`engagement_rate` and `limit` to `10` at the parameter-reading line. -/
structure TopPostsParams where
  tenantId : String
  metric : String
  limit : Nat
  platform : Option String
  startDate : Option String
  endDate : Option String
  deriving DecidableEq, Repr

/-- The `validMetrics` list of the top-posts handler. -/
def validMetrics : List String :=
  ["views", "likes", "comments", "shares", "clicks", "impressions",
    "engagement_rate", "click_through_rate"]

/-- `validMetrics.includes(metric) ? metric : 'engagement_rate'`. -/
def chooseOrderBy (metric : String) : String :=
  if validMetrics.contains metric then metric else "engagement_rate"

/-- The numeric value of a sortable column (integer counters compared as
numbers alongside the rational rate columns). -/
def metricValue (m : String) (r : PostAnalyticsRow) : ℚ :=
  match m with
  | "views" => (r.views : ℚ)
  | "likes" => (r.likes : ℚ)
  | "comments" => (r.comments : ℚ)
  | "shares" => (r.shares : ℚ)
  | "clicks" => (r.clicks : ℚ)
  | "impressions" => (r.impressions : ℚ)
  | "engagement_rate" => r.engagement_rate
  | "click_through_rate" => r.click_through_rate
  | _ => 0

/-- `.order(orderBy, { ascending: false })`: metric descending. -/
def metricGe (m : String) (a b : PostAnalyticsRow) : Prop :=
  metricValue m b ≤ metricValue m a

instance (m : String) : DecidableRel (metricGe m) := fun a b =>
  inferInstanceAs (Decidable (metricValue m b ≤ metricValue m a))

instance (m : String) : IsTotal PostAnalyticsRow (metricGe m) :=
  ⟨fun a b => le_total (metricValue m b) (metricValue m a)⟩

instance (m : String) : IsTrans PostAnalyticsRow (metricGe m) :=
  ⟨fun _ _ _ h h' => le_trans h' h⟩

/-- The row filter of the top-posts query: `.eq('tenant_id', ...)` plus
optional `.eq('platform', ...)`, `.gte('date', ...)`, `.lte('date', ...)`. -/
def topPostsRowFilter (p : TopPostsParams) (r : PostAnalyticsRow) : Bool :=
  r.tenant_id == p.tenantId &&
    (match p.platform with | none => true | some pl => r.platform == pl) &&
    (match p.startDate with | none => true | some d => decide (d ≤ r.date)) &&
    (match p.endDate with | none => true | some d => decide (r.date ≤ d))

/-- The `topPosts` record set: filtered rows ordered descending by the
chosen metric, truncated to `limit`. -/
def topPostsQuery (p : TopPostsParams) (rows : List PostAnalyticsRow) :
    List PostAnalyticsRow :=
  (((rows.filter (topPostsRowFilter p)).insertionSort
    (metricGe (chooseOrderBy p.metric))).take p.limit)

/-- The `metrics` object of one formatted top post. -/
structure TopPostMetrics where
  views : Int
  likes : Int
  comments : Int
  shares : Int
  clicks : Int
  impressions : Int
  engagement_rate : ℚ
  click_through_rate : ℚ
  reach : Int
  deriving DecidableEq, Repr

/-- The `content` enrichment of one formatted top post. -/
structure ContentSummary where
  type : String
  text_content : String
  platform : String
  created_at : String
  deriving DecidableEq, Repr

/-- The `schedule_info` enrichment of one formatted top post. -/
structure ScheduleInfo where
  scheduled_at : String
  published_at : Option String
  status : String
  deriving DecidableEq, Repr

/-- One element of the `top_posts` response array. -/
structure FormattedPost where
  id : Nat
  content_item_id : Option String
  scheduled_post_id : String
  platform : String
  date : String
  metrics : TopPostMetrics
  content : Option ContentSummary
  schedule_info : Option ScheduleInfo
  deriving DecidableEq, Repr

/-- Formatting of one row, with the joined `content_items` and
`scheduled_posts` rows when they exist. -/
def formatPost (contentItems : List ContentItemRow)
    (scheduledPosts : List ScheduledPostRow) (r : PostAnalyticsRow) :
    FormattedPost :=
  { id := r.id
    content_item_id := r.content_item_id
    scheduled_post_id := r.scheduled_post_id
    platform := r.platform
    date := r.date
    metrics :=
      { views := r.views, likes := r.likes, comments := r.comments
        shares := r.shares, clicks := r.clicks, impressions := r.impressions
        engagement_rate := r.engagement_rate
        click_through_rate := r.click_through_rate, reach := r.reach }
    content :=
      (r.content_item_id.bind fun cid =>
        contentItems.find? (·.id == cid)).map fun ci =>
        { type := ci.type, text_content := ci.text_content
          platform := ci.platform, created_at := ci.created_at }
    schedule_info :=
      (scheduledPosts.find? (·.id == r.scheduled_post_id)).map fun sp =>
        { scheduled_at := sp.scheduled_at, published_at := sp.published_at
          status := sp.status } }

/-- `GET /api/settings/analytics/top-posts`. -/
def getTopPosts (p : TopPostsParams) (rows : List PostAnalyticsRow)
    (contentItems : List ContentItemRow)
    (scheduledPosts : List ScheduledPostRow) : List FormattedPost :=
  (topPostsQuery p rows).map (formatPost contentItems scheduledPosts)

/-! ## Invariants and abstractions used by the statements -/

/-- Two rows agree on the natural key `(tenant_id, scheduled_post_id,
platform, date)`. -/
def sameKey (a b : PostAnalyticsRow) : Bool :=
  a.tenant_id == b.tenant_id && a.scheduled_post_id == b.scheduled_post_id &&
    a.platform == b.platform && a.date == b.date

/-- The natural-key uniqueness invariant of the `post_analytics` table
(migration: `UNIQUE(tenant_id, scheduled_post_id, platform, date)`). -/
def KeyUnique (rows : List PostAnalyticsRow) : Prop :=
  rows.Pairwise (fun a b => sameKey a b = false)

/-- Well-formedness of the aggregate store: primary keys are distinct and
below the id supply. -/
def AggWF (s : AggStore) : Prop :=
  (∀ r ∈ s.rows, r.id < s.nextId) ∧ s.rows.Pairwise (fun a b => a.id ≠ b.id)

/-- The raw counter a given event type drives (`0` for strings outside the
closed enum, which drive no counter). -/
def counterGet (t : String) (r : PostAnalyticsRow) : Int :=
  match t with
  | "view" => r.views
  | "like" => r.likes
  | "comment" => r.comments
  | "share" => r.shares
  | "click" => r.clicks
  | "impression" => r.impressions
  | _ => 0

/-- Sum of `value` over the events of one event type. -/
def typeSum (t : String) (evs : List (String × Int)) : Int :=
  ((evs.filter (fun e => e.1 == t)).map (·.2)).sum

/-- Run the aggregate updater once per event (eventType, value), in list
order, for one fixed natural key. -/
def applyEvents (sps : List ScheduledPostRow) (t sp pl today : String)
    (evs : List (String × Int)) (store : AggStore) : AggStore :=
  evs.foldl
    (fun st e => updatePostAnalytics sps t sp pl e.1 e.2 today st) store

/-- The specification formula for the stored engagement rate:
`round2(100 * (likes+comments+shares) / impressions)` when
`impressions > 0`, else exactly `0`. -/
def specEngagementRate (r : PostAnalyticsRow) : ℚ :=
  if r.impressions > 0 then
    round2 (100 * (((r.likes + r.comments + r.shares : Int)) : ℚ) /
      ((r.impressions : Int) : ℚ))
  else 0

/-- The specification formula for the stored click-through rate. -/
def specClickThroughRate (r : PostAnalyticsRow) : ℚ :=
  if r.impressions > 0 then
    round2 (100 * ((r.clicks : Int) : ℚ) / ((r.impressions : Int) : ℚ))
  else 0

/-- The row written back by the existing-row branch of the updater, as a
function of the previously read row `ex` and the stored row `r` it
overwrites (by primary key `ex.id`). -/
def existingBranchRow (ex : PostAnalyticsRow) (et : String) (v : Int)
    (r : PostAnalyticsRow) : PostAnalyticsRow :=
  let updates := computeUpdates (some ex) et v
  let newTotals := applyUpdates updates ex
  let totalEngagement : ℚ :=
    ((newTotals.likes + newTotals.comments + newTotals.shares : Int) : ℚ)
  let engagementRate : ℚ :=
    if newTotals.impressions > 0 then
      totalEngagement / ((newTotals.impressions : Int) : ℚ) * 100
    else 0
  let ctr : ℚ :=
    if newTotals.impressions > 0 then
      ((newTotals.clicks : Int) : ℚ) / ((newTotals.impressions : Int) : ℚ) * 100
    else 0
  { applyUpdates updates r with
    engagement_rate := round2 engagementRate
    click_through_rate := round2 ctr }

/-- The row inserted by the no-existing-row branch of the updater. -/
def insertBranchRow (scheduledPosts : List ScheduledPostRow)
    (tenantId scheduledPostId platform eventType : String) (eventValue : Int)
    (today : String) (nextId : Nat) : PostAnalyticsRow :=
  applyUpdates (computeUpdates none eventType eventValue)
    { id := nextId
      tenant_id := tenantId
      content_item_id :=
        (singleMatch (fun spr => spr.id == scheduledPostId)
          scheduledPosts).bind (·.content_item_id)
      scheduled_post_id := scheduledPostId
      platform := platform
      views := 0, likes := 0, comments := 0, shares := 0
      clicks := 0, impressions := 0
      engagement_rate := 0
      click_through_rate := 0
      unique_viewers := 0, reach := 0
      date := today }

/-- Everything one `updatePostAnalytics` invocation guarantees: invariants
are preserved, exactly one row carries the natural key afterwards, its
counters are the pre-state counters incremented by the event, its stored
rates satisfy the derivation formulas, any newly created row carries
today's date, and rows off the key are untouched. -/
def UpdOutcome (t sp pl et : String) (v : Int) (today : String)
    (store s' : AggStore) : Prop :=
  AggWF s' ∧ KeyUnique s'.rows ∧
  (∃ r', s'.rows.filter (matchesNaturalKey t sp pl today) = [r'] ∧
    (∀ t' ∈ eventTypeEnum, counterGet t' r' =
      (match readAggregate t sp pl today store.rows with
        | some ex => counterGet t' ex
        | none => 0) + (if t' = et then v else 0)) ∧
    r'.engagement_rate = specEngagementRate r' ∧
    r'.click_through_rate = specClickThroughRate r') ∧
  (∀ r ∈ s'.rows, r ∉ store.rows → r.date = today) ∧
  (∀ r : PostAnalyticsRow, matchesNaturalKey t sp pl today r = false →
    (r ∈ s'.rows ↔ r ∈ store.rows))

/-! ## Concrete fixtures used in closed statements and in witnesses -/

/-- A stored aggregate row holding one impression and nothing else. -/
def fixtureRow : PostAnalyticsRow :=
  { id := 0, tenant_id := "t1", content_item_id := none
    scheduled_post_id := "sp1", platform := "instagram"
    views := 0, likes := 0, comments := 0, shares := 0, clicks := 0
    impressions := 1, engagement_rate := 0, click_through_rate := 0
    unique_viewers := 0, reach := 0, date := "2026-01-01" }

/-- A store holding `fixtureRow` only. -/
def fixtureStore : AggStore := ⟨[fixtureRow], 1⟩

/-- The read phase both in-flight updaters perform against the initial
store, before either one has written. -/
def interleavedRead : Option PostAnalyticsRow :=
  readAggregate "t1" "sp1" "instagram" "2026-01-01" fixtureStore.rows

/-- The first concurrent `like`(1) updater commits its write phase. -/
def interleavedS1 : AggStore :=
  writeAggregate [] "t1" "sp1" "instagram" "like" 1 "2026-01-01"
    interleavedRead fixtureStore

/-- The second concurrent `like`(1) updater commits its write phase,
computed from the same stale read. -/
def interleavedS2 : AggStore :=
  writeAggregate [] "t1" "sp1" "instagram" "like" 1 "2026-01-01"
    interleavedRead interleavedS1

/-- The same two `like`(1) events applied one at a time. -/
def sequentialS2 : AggStore :=
  applyEvents [] "t1" "sp1" "instagram" "2026-01-01"
    [("like", 1), ("like", 1)] fixtureStore

/-- A request body whose `platform` lies outside the closed platform set
and whose `eventValue` is not a positive integer. -/
def roguePlatformBody : RawEvent :=
  { tenantId := "123e4567-e89b-12d3-a456-426614174000"
    contentItemId := none
    scheduledPostId := none
    eventType := "like"
    platform := "myspace"
    eventValue := some 0
    externalEventId := none }

/-- A valid request body with no `scheduledPostId` (orphan event). -/
def orphanEventBody : RawEvent :=
  { tenantId := "123e4567-e89b-12d3-a456-426614174000"
    contentItemId := none
    scheduledPostId := none
    eventType := "view"
    platform := "instagram"
    eventValue := none
    externalEventId := none }

/-- One tenant membership: the fixture user belongs to the fixture
tenant. -/
def fixtureTenantUsers : List (String × String) :=
  [("123e4567-e89b-12d3-a456-426614174000", "user-1")]

/-- An application state with the fixture membership and empty tables. -/
def fixtureState : AppState :=
  { tenant_users := fixtureTenantUsers
    analytics_events := []
    scheduled_posts := []
    content_items := []
    post_analytics := ⟨[], 0⟩
    nextEventId := 0 }

/-- An aggregate row of tenant `t1` with a given id, view count and
engagement rate, used by the query fixtures. -/
def queryRow (i : Nat) (vw : Int) (er : ℚ) (likes imp : Int) :
    PostAnalyticsRow :=
  { id := i, tenant_id := "t1", content_item_id := none
    scheduled_post_id := "sp1", platform := "instagram"
    views := vw, likes := likes, comments := 0, shares := 0, clicks := 0
    impressions := imp, engagement_rate := er, click_through_rate := 0
    unique_viewers := 0, reach := 0, date := "2026-01-01" }

/-- Three rows with views 50, 200 and 10 (end-to-end scenario 4). -/
def topPostsFixtureRows : List PostAnalyticsRow :=
  [queryRow 0 50 0 0 0, queryRow 1 200 0 0 0, queryRow 2 10 0 0 0]

/-- The top-posts request of end-to-end scenario 4. -/
def topPostsFixtureParams : TopPostsParams :=
  { tenantId := "t1", metric := "views", limit := 2
    platform := none, startDate := none, endDate := none }

/-- Two rows whose per-row mean rate differs from the impression-weighted
rate: one like out of one impression (rate 100), zero likes out of 99
impressions (rate 0). -/
def meanFixtureRows : List PostAnalyticsRow :=
  [queryRow 0 0 100 1 1, queryRow 1 0 0 0 99]

/-- An overview request for tenant `t1` with no optional filters. -/
def overviewFixtureFilters : OverviewFilters :=
  { tenantId := "t1", startDate := none, endDate := none, platform := none }

/-- An overview request for a tenant that owns no rows. -/
def absentTenantFilters : OverviewFilters :=
  { tenantId := "t-absent", startDate := none, endDate := none
    platform := none }

/-- One aggregate row belonging to a different tenant `t2`. -/
def foreignRows : List PostAnalyticsRow :=
  [{ id := 9, tenant_id := "t2", content_item_id := none
     scheduled_post_id := "sp1", platform := "instagram"
     views := 7, likes := 7, comments := 7, shares := 7, clicks := 7
     impressions := 7, engagement_rate := 7, click_through_rate := 7
     unique_viewers := 7, reach := 7, date := "2026-01-01" }]

/-- A request body whose `eventType` lies outside the closed enum. -/
def badTypeBody : RawEvent :=
  { tenantId := "123e4567-e89b-12d3-a456-426614174000"
    contentItemId := none
    scheduledPostId := none
    eventType := "love"
    platform := "instagram"
    eventValue := some 1
    externalEventId := none }

/-- The parse result of `orphanEventBody`. -/
def orphanParsed : ParsedEvent :=
  { tenantId := "123e4567-e89b-12d3-a456-426614174000"
    contentItemId := none
    scheduledPostId := none
    eventType := "view"
    platform := "instagram"
    eventValue := 1
    externalEventId := none }

/-- The `analytics_events` row the POST handler inserts for a parsed
body. -/
def insertedEventRow (s : AppState) (d : ParsedEvent) : AnalyticsEventRow :=
  { id := s.nextEventId
    tenant_id := d.tenantId
    content_item_id := d.contentItemId
    scheduled_post_id := d.scheduledPostId
    event_type := d.eventType
    platform := d.platform
    event_value := d.eventValue
    external_event_id := d.externalEventId }

instance (s : AggStore) : Decidable (AggWF s) := by
  unfold AggWF
  infer_instance

instance (rows : List PostAnalyticsRow) : Decidable (KeyUnique rows) := by
  unfold KeyUnique
  infer_instance

/-! ## Helper lemmas -/

theorem singleMatch_eq_some {p : α → Bool} {l : List α} {r : α} :
    singleMatch p l = some r ↔ l.filter p = [r] := by
  unfold singleMatch
  constructor
  · intro h
    split at h
    · next r' heq => cases h; exact heq
    · exact absurd h (by simp)
  · intro h
    rw [h]

theorem matchesNaturalKey_iff {t sp pl d : String} {r : PostAnalyticsRow} :
    matchesNaturalKey t sp pl d r = true ↔
      r.tenant_id = t ∧ r.scheduled_post_id = sp ∧ r.platform = pl ∧
        r.date = d := by
  simp [matchesNaturalKey, and_assoc]

theorem sameKey_true_iff {a b : PostAnalyticsRow} :
    sameKey a b = true ↔
      a.tenant_id = b.tenant_id ∧ a.scheduled_post_id = b.scheduled_post_id ∧
        a.platform = b.platform ∧ a.date = b.date := by
  simp [sameKey, and_assoc]

theorem sameKey_of_matches {t sp pl d : String} {a b : PostAnalyticsRow}
    (ha : matchesNaturalKey t sp pl d a = true)
    (hb : matchesNaturalKey t sp pl d b = true) : sameKey a b = true := by
  rw [matchesNaturalKey_iff] at ha hb
  rw [sameKey_true_iff]
  obtain ⟨h1, h2, h3, h4⟩ := ha
  obtain ⟨g1, g2, g3, g4⟩ := hb
  exact ⟨h1.trans g1.symm, h2.trans g2.symm, h3.trans g3.symm, h4.trans g4.symm⟩

theorem keyFilter_length_le_one (t sp pl d : String)
    {rows : List PostAnalyticsRow} (hKU : KeyUnique rows) :
    (rows.filter (matchesNaturalKey t sp pl d)).length ≤ 1 := by
  have hpw : (rows.filter (matchesNaturalKey t sp pl d)).Pairwise
      (fun a b => sameKey a b = false) := hKU.filter _
  match hfl : rows.filter (matchesNaturalKey t sp pl d) with
  | [] => simp
  | [r] => simp
  | a :: b :: rest =>
    exfalso
    have ha : matchesNaturalKey t sp pl d a = true :=
      List.of_mem_filter (hfl ▸ List.mem_cons_self a (b :: rest))
    have hb : matchesNaturalKey t sp pl d b = true :=
      List.of_mem_filter (hfl ▸ List.mem_cons_of_mem a (List.mem_cons_self b rest))
    have hfalse : sameKey a b = false := by
      rw [hfl] at hpw
      exact (List.pairwise_cons.mp hpw).1 b (List.mem_cons_self b rest)
    rw [sameKey_of_matches ha hb] at hfalse
    cases hfalse

theorem readAggregate_eq_some {t sp pl d : String}
    {rows : List PostAnalyticsRow} {r : PostAnalyticsRow} :
    readAggregate t sp pl d rows = some r ↔
      rows.filter (matchesNaturalKey t sp pl d) = [r] :=
  singleMatch_eq_some

theorem readAggregate_eq_none {t sp pl d : String}
    {rows : List PostAnalyticsRow} (hKU : KeyUnique rows)
    (h : readAggregate t sp pl d rows = none) :
    rows.filter (matchesNaturalKey t sp pl d) = [] := by
  have hlen := keyFilter_length_le_one t sp pl d hKU
  unfold readAggregate singleMatch at h
  match hfl : rows.filter (matchesNaturalKey t sp pl d) with
  | [] => rfl
  | [r] => rw [hfl] at h; cases h
  | a :: b :: rest => rw [hfl] at hlen; simp at hlen

theorem round2_zero : round2 0 = 0 := by norm_num [round2]

theorem computeUpdates_views (ex : Option PostAnalyticsRow) (et : String)
    (v : Int) : (computeUpdates ex et v).views =
      if et = "view" then some ((ex.map (·.views)).getD 0 + v) else none := by
  unfold computeUpdates
  split <;> simp_all

theorem computeUpdates_likes (ex : Option PostAnalyticsRow) (et : String)
    (v : Int) : (computeUpdates ex et v).likes =
      if et = "like" then some ((ex.map (·.likes)).getD 0 + v) else none := by
  unfold computeUpdates
  split <;> simp_all

theorem computeUpdates_comments (ex : Option PostAnalyticsRow) (et : String)
    (v : Int) : (computeUpdates ex et v).comments =
      if et = "comment" then some ((ex.map (·.comments)).getD 0 + v)
      else none := by
  unfold computeUpdates
  split <;> simp_all

theorem computeUpdates_shares (ex : Option PostAnalyticsRow) (et : String)
    (v : Int) : (computeUpdates ex et v).shares =
      if et = "share" then some ((ex.map (·.shares)).getD 0 + v) else none := by
  unfold computeUpdates
  split <;> simp_all

theorem computeUpdates_clicks (ex : Option PostAnalyticsRow) (et : String)
    (v : Int) : (computeUpdates ex et v).clicks =
      if et = "click" then some ((ex.map (·.clicks)).getD 0 + v) else none := by
  unfold computeUpdates
  split <;> simp_all

theorem computeUpdates_impressions (ex : Option PostAnalyticsRow)
    (et : String) (v : Int) : (computeUpdates ex et v).impressions =
      if et = "impression" then some ((ex.map (·.impressions)).getD 0 + v)
      else none := by
  unfold computeUpdates
  split <;> simp_all

theorem writeAggregate_some (sps : List ScheduledPostRow)
    (t sp pl et : String) (v : Int) (today : String)
    (ex : PostAnalyticsRow) (store : AggStore) :
    writeAggregate sps t sp pl et v today (some ex) store =
      { store with rows := store.rows.map fun r =>
          if r.id == ex.id then existingBranchRow ex et v r else r } := rfl

theorem writeAggregate_none (sps : List ScheduledPostRow)
    (t sp pl et : String) (v : Int) (today : String) (store : AggStore) :
    writeAggregate sps t sp pl et v today none store =
      { rows := store.rows ++ [insertBranchRow sps t sp pl et v today
          store.nextId],
        nextId := store.nextId + 1 } := rfl

theorem existingBranchRow_id (ex : PostAnalyticsRow) (et : String) (v : Int)
    (r : PostAnalyticsRow) : (existingBranchRow ex et v r).id = r.id := rfl

theorem existingBranchRow_keys (ex : PostAnalyticsRow) (et : String)
    (v : Int) (r : PostAnalyticsRow) :
    (existingBranchRow ex et v r).tenant_id = r.tenant_id ∧
    (existingBranchRow ex et v r).scheduled_post_id = r.scheduled_post_id ∧
    (existingBranchRow ex et v r).platform = r.platform ∧
    (existingBranchRow ex et v r).date = r.date :=
  ⟨rfl, rfl, rfl, rfl⟩

theorem insertBranchRow_keys (sps : List ScheduledPostRow)
    (t sp pl et : String) (v : Int) (today : String) (n : Nat) :
    (insertBranchRow sps t sp pl et v today n).id = n ∧
    (insertBranchRow sps t sp pl et v today n).tenant_id = t ∧
    (insertBranchRow sps t sp pl et v today n).scheduled_post_id = sp ∧
    (insertBranchRow sps t sp pl et v today n).platform = pl ∧
    (insertBranchRow sps t sp pl et v today n).date = today :=
  ⟨rfl, rfl, rfl, rfl, rfl⟩

theorem counterGet_existingBranchRow (t' : String) (ht' : t' ∈ eventTypeEnum)
    (ex : PostAnalyticsRow) (et : String) (v : Int) :
    counterGet t' (existingBranchRow ex et v ex) =
      counterGet t' ex + if t' = et then v else 0 := by
  simp only [eventTypeEnum, List.mem_cons, List.not_mem_nil, or_false] at ht'
  rcases ht' with rfl | rfl | rfl | rfl | rfl | rfl <;>
    rcases eq_or_ne et "view" with h | h <;>
      rcases eq_or_ne et "like" with h2 | h2 <;>
        rcases eq_or_ne et "comment" with h3 | h3 <;>
          rcases eq_or_ne et "share" with h4 | h4 <;>
            rcases eq_or_ne et "click" with h5 | h5 <;>
              rcases eq_or_ne et "impression" with h6 | h6 <;>
    simp_all [counterGet, existingBranchRow, applyUpdates,
      computeUpdates_views, computeUpdates_likes, computeUpdates_comments,
      computeUpdates_shares, computeUpdates_clicks,
      computeUpdates_impressions, eq_comm]

theorem counterGet_insertBranchRow (t' : String) (ht' : t' ∈ eventTypeEnum)
    (sps : List ScheduledPostRow) (t sp pl et : String) (v : Int)
    (today : String) (n : Nat) :
    counterGet t' (insertBranchRow sps t sp pl et v today n) =
      if t' = et then v else 0 := by
  simp only [eventTypeEnum, List.mem_cons, List.not_mem_nil, or_false] at ht'
  rcases ht' with rfl | rfl | rfl | rfl | rfl | rfl <;>
    rcases eq_or_ne et "view" with h | h <;>
      rcases eq_or_ne et "like" with h2 | h2 <;>
        rcases eq_or_ne et "comment" with h3 | h3 <;>
          rcases eq_or_ne et "share" with h4 | h4 <;>
            rcases eq_or_ne et "click" with h5 | h5 <;>
              rcases eq_or_ne et "impression" with h6 | h6 <;>
    simp_all [counterGet, insertBranchRow, applyUpdates,
      computeUpdates_views, computeUpdates_likes, computeUpdates_comments,
      computeUpdates_shares, computeUpdates_clicks,
      computeUpdates_impressions, eq_comm]

theorem existingBranchRow_rates (ex : PostAnalyticsRow) (et : String)
    (v : Int) :
    (existingBranchRow ex et v ex).engagement_rate =
      specEngagementRate (existingBranchRow ex et v ex) ∧
    (existingBranchRow ex et v ex).click_through_rate =
      specClickThroughRate (existingBranchRow ex et v ex) := by
  dsimp only [existingBranchRow, specEngagementRate, specClickThroughRate,
    applyUpdates]
  by_cases h :
      ((computeUpdates (some ex) et v).impressions.getD ex.impressions) > 0
  · constructor
    · rw [if_pos h, if_pos h]
      congr 1
      ring
    · rw [if_pos h, if_pos h]
      congr 1
      ring
  · constructor
    · rw [if_neg h, if_neg h, round2_zero]
    · rw [if_neg h, if_neg h, round2_zero]

theorem insertBranchRow_rate_values (sps : List ScheduledPostRow)
    (t sp pl et : String) (v : Int) (today : String) (n : Nat) :
    (insertBranchRow sps t sp pl et v today n).engagement_rate = 0 ∧
    (insertBranchRow sps t sp pl et v today n).click_through_rate = 0 :=
  ⟨rfl, rfl⟩

theorem insertBranchRow_rates (sps : List ScheduledPostRow)
    (t sp pl et : String) (v : Int) (today : String) (n : Nat) :
    (insertBranchRow sps t sp pl et v today n).engagement_rate =
      specEngagementRate (insertBranchRow sps t sp pl et v today n) ∧
    (insertBranchRow sps t sp pl et v today n).click_through_rate =
      specClickThroughRate (insertBranchRow sps t sp pl et v today n) := by
  have hl := counterGet_insertBranchRow "like" (by simp [eventTypeEnum])
    sps t sp pl et v today n
  have hc := counterGet_insertBranchRow "comment" (by simp [eventTypeEnum])
    sps t sp pl et v today n
  have hs := counterGet_insertBranchRow "share" (by simp [eventTypeEnum])
    sps t sp pl et v today n
  have hk := counterGet_insertBranchRow "click" (by simp [eventTypeEnum])
    sps t sp pl et v today n
  have hi := counterGet_insertBranchRow "impression" (by simp [eventTypeEnum])
    sps t sp pl et v today n
  simp only [counterGet] at hl hc hs hk hi
  unfold specEngagementRate specClickThroughRate
  rcases eq_or_ne et "impression" with h | h
  · have hl0 : (insertBranchRow sps t sp pl et v today n).likes = 0 := by
      rw [hl]; simp [h]
    have hc0 : (insertBranchRow sps t sp pl et v today n).comments = 0 := by
      rw [hc]; simp [h]
    have hs0 : (insertBranchRow sps t sp pl et v today n).shares = 0 := by
      rw [hs]; simp [h]
    have hk0 : (insertBranchRow sps t sp pl et v today n).clicks = 0 := by
      rw [hk]; simp [h]
    constructor
    · rw [(insertBranchRow_rate_values sps t sp pl et v today n).1]
      by_cases himp : (insertBranchRow sps t sp pl et v today n).impressions > 0
      · rw [if_pos himp, hl0, hc0, hs0]
        norm_num [round2_zero]
      · rw [if_neg himp]
    · rw [(insertBranchRow_rate_values sps t sp pl et v today n).2]
      by_cases himp : (insertBranchRow sps t sp pl et v today n).impressions > 0
      · rw [if_pos himp, hk0]
        norm_num [round2_zero]
      · rw [if_neg himp]
  · have hi0 : (insertBranchRow sps t sp pl et v today n).impressions = 0 := by
      rw [hi]; simp [Ne.symm h]
    constructor
    · rw [(insertBranchRow_rate_values sps t sp pl et v today n).1, hi0]
      norm_num
    · rw [(insertBranchRow_rate_values sps t sp pl et v today n).2, hi0]
      norm_num

theorem eq_of_mem_id {rows : List PostAnalyticsRow}
    (hids : rows.Pairwise (fun a b => a.id ≠ b.id))
    {r s : PostAnalyticsRow} (hr : r ∈ rows) (hs : s ∈ rows)
    (h : r.id = s.id) : r = s := by
  by_contra hne
  exact List.Pairwise.forall (fun {a b} hab => hab ∘ Eq.symm) hids hr hs hne h

theorem updateOutcome_of_read_some (sps : List ScheduledPostRow)
    (t sp pl et : String) (v : Int) (today : String) (store : AggStore)
    (ex : PostAnalyticsRow) (hWF : AggWF store) (hKU : KeyUnique store.rows)
    (hread : readAggregate t sp pl today store.rows = some ex) :
    UpdOutcome t sp pl et v today store
      (updatePostAnalytics sps t sp pl et v today store) := by
  have hfl := readAggregate_eq_some.mp hread
  have hexmem : ex ∈ store.rows :=
    List.mem_of_mem_filter (hfl ▸ List.mem_singleton_self ex)
  have hexmatch : matchesNaturalKey t sp pl today ex = true :=
    List.of_mem_filter (hfl ▸ List.mem_singleton_self ex)
  have hrows : updatePostAnalytics sps t sp pl et v today store =
      { store with rows := store.rows.map fun r =>
          if r.id == ex.id then existingBranchRow ex et v r else r } := by
    unfold updatePostAnalytics
    rw [hread, writeAggregate_some]
  set g : PostAnalyticsRow → PostAnalyticsRow := fun r =>
    if r.id == ex.id then existingBranchRow ex et v r else r with hg
  have hg_id : ∀ r, (g r).id = r.id := by
    intro r
    by_cases h : r.id = ex.id <;> simp [hg, h, existingBranchRow_id]
  have hg_keys : ∀ r, (g r).tenant_id = r.tenant_id ∧
      (g r).scheduled_post_id = r.scheduled_post_id ∧
      (g r).platform = r.platform ∧ (g r).date = r.date := by
    intro r
    by_cases h : r.id = ex.id <;> simp [hg, h, existingBranchRow_keys]
  have hg_match : ∀ r, matchesNaturalKey t sp pl today (g r) =
      matchesNaturalKey t sp pl today r := by
    intro r
    unfold matchesNaturalKey
    rw [(hg_keys r).1, (hg_keys r).2.1, (hg_keys r).2.2.1, (hg_keys r).2.2.2]
  have hg_sameKey : ∀ a b, sameKey (g a) (g b) = sameKey a b := by
    intro a b
    unfold sameKey
    rw [(hg_keys a).1, (hg_keys a).2.1, (hg_keys a).2.2.1, (hg_keys a).2.2.2,
      (hg_keys b).1, (hg_keys b).2.1, (hg_keys b).2.2.1, (hg_keys b).2.2.2]
  rw [hrows]
  refine ⟨⟨?_, ?_⟩, ?_, ?_, ?_, ?_⟩
  · intro r' hr'
    obtain ⟨r, hr, rfl⟩ := List.mem_map.mp hr'
    rw [hg_id]
    exact hWF.1 r hr
  · exact List.pairwise_map.mpr (hWF.2.imp fun {a b} h => by
      rw [hg_id, hg_id]; exact h)
  · exact List.pairwise_map.mpr (hKU.imp fun {a b} h => by
      rw [hg_sameKey]; exact h)
  · refine ⟨existingBranchRow ex et v ex, ?_, ?_, ?_, ?_⟩
    · show List.filter _ (List.map g store.rows) = _
      have hcomp : List.filter (matchesNaturalKey t sp pl today ∘ g)
          store.rows = List.filter (matchesNaturalKey t sp pl today)
          store.rows := List.filter_congr (fun a _ => hg_match a)
      rw [List.filter_map, hcomp, hfl]
      show [g ex] = _
      simp [hg]
    · intro t' ht'
      rw [hread]
      exact counterGet_existingBranchRow t' ht' ex et v
    · exact (existingBranchRow_rates ex et v).1
    · exact (existingBranchRow_rates ex et v).2
  · intro r' hr' hnot
    obtain ⟨r, hr, rfl⟩ := List.mem_map.mp hr'
    by_cases h : r.id = ex.id
    · have hrex : r = ex := eq_of_mem_id hWF.2 hr hexmem h
      subst hrex
      have : (g r).date = r.date := (hg_keys r).2.2.2
      rw [this]
      exact (matchesNaturalKey_iff.mp hexmatch).2.2.2
    · exfalso
      apply hnot
      have : g r = r := by simp [hg, h]
      rw [this]
      exact hr
  · intro r0 hnm
    constructor
    · intro h0
      obtain ⟨r, hr, rfl⟩ := List.mem_map.mp h0
      by_cases h : r.id = ex.id
      · exfalso
        have hrex : r = ex := eq_of_mem_id hWF.2 hr hexmem h
        subst hrex
        rw [hg_match r, hexmatch] at hnm
        cases hnm
      · have : g r = r := by simp [hg, h]
        rw [this]
        exact hr
    · intro h0
      by_cases h : r0.id = ex.id
      · exfalso
        have hrex : r0 = ex := eq_of_mem_id hWF.2 h0 hexmem h
        subst hrex
        rw [hexmatch] at hnm
        cases hnm
      · have hfix : g r0 = r0 := by simp [hg, h]
        exact List.mem_map.mpr ⟨r0, h0, hfix⟩

theorem updateOutcome_of_read_none (sps : List ScheduledPostRow)
    (t sp pl et : String) (v : Int) (today : String) (store : AggStore)
    (hWF : AggWF store) (hKU : KeyUnique store.rows)
    (hread : readAggregate t sp pl today store.rows = none) :
    UpdOutcome t sp pl et v today store
      (updatePostAnalytics sps t sp pl et v today store) := by
  have hfl := readAggregate_eq_none hKU hread
  have hnomatch : ∀ r ∈ store.rows,
      matchesNaturalKey t sp pl today r = false := by
    intro r hr
    have := List.filter_eq_nil_iff.mp hfl r hr
    simpa using this
  have hrows : updatePostAnalytics sps t sp pl et v today store =
      { rows := store.rows ++
          [insertBranchRow sps t sp pl et v today store.nextId],
        nextId := store.nextId + 1 } := by
    unfold updatePostAnalytics
    rw [hread, writeAggregate_none]
  set nr : PostAnalyticsRow := insertBranchRow sps t sp pl et v today
    store.nextId with hnr
  obtain ⟨hnr_id, hnr_t, hnr_sp, hnr_pl, hnr_d⟩ :=
    insertBranchRow_keys sps t sp pl et v today store.nextId
  have hnewmatch : matchesNaturalKey t sp pl today nr = true :=
    matchesNaturalKey_iff.mpr ⟨hnr_t, hnr_sp, hnr_pl, hnr_d⟩
  have hnot_same : ∀ a ∈ store.rows, sameKey a nr = false := by
    intro a ha
    by_contra hcontra
    have htrue : sameKey a nr = true := by
      cases hsk : sameKey a nr
      · exact absurd hsk hcontra
      · rfl
    obtain ⟨k1, k2, k3, k4⟩ := sameKey_true_iff.mp htrue
    have : matchesNaturalKey t sp pl today a = true :=
      matchesNaturalKey_iff.mpr
        ⟨k1.trans hnr_t, k2.trans hnr_sp, k3.trans hnr_pl, k4.trans hnr_d⟩
    rw [hnomatch a ha] at this
    cases this
  rw [hrows]
  refine ⟨⟨?_, ?_⟩, ?_, ?_, ?_, ?_⟩
  · intro r' hr'
    rcases List.mem_append.mp hr' with h | h
    · exact Nat.lt_succ_of_lt (hWF.1 r' h)
    · rw [List.mem_singleton.mp h, hnr_id]
      exact Nat.lt_succ_self _
  · refine List.pairwise_append.mpr ⟨hWF.2, List.pairwise_singleton _ _, ?_⟩
    intro a ha b hb
    rw [List.mem_singleton.mp hb, hnr_id]
    exact Nat.ne_of_lt (hWF.1 a ha)
  · refine List.pairwise_append.mpr ⟨hKU, List.pairwise_singleton _ _, ?_⟩
    intro a ha b hb
    rw [List.mem_singleton.mp hb]
    exact hnot_same a ha
  · refine ⟨nr, ?_, ?_, ?_, ?_⟩
    · rw [List.filter_append, hfl, List.nil_append]
      simp [hnewmatch]
    · intro t' ht'
      rw [hread,
        counterGet_insertBranchRow t' ht' sps t sp pl et v today store.nextId]
      simp
    · exact (insertBranchRow_rates sps t sp pl et v today store.nextId).1
    · exact (insertBranchRow_rates sps t sp pl et v today store.nextId).2
  · intro r' hr' hnot
    rcases List.mem_append.mp hr' with h | h
    · exact absurd h hnot
    · rw [List.mem_singleton.mp h]
      exact hnr_d
  · intro r0 hnm
    constructor
    · intro h0
      rcases List.mem_append.mp h0 with h | h
      · exact h
      · exfalso
        rw [List.mem_singleton.mp h, hnewmatch] at hnm
        cases hnm
    · intro h0
      exact List.mem_append.mpr (Or.inl h0)

/-- The combined step lemma for one updater invocation. -/
theorem update_outcome (sps : List ScheduledPostRow) (t sp pl et : String)
    (v : Int) (today : String) (store : AggStore) (hWF : AggWF store)
    (hKU : KeyUnique store.rows) :
    UpdOutcome t sp pl et v today store
      (updatePostAnalytics sps t sp pl et v today store) := by
  cases hread : readAggregate t sp pl today store.rows with
  | none =>
    exact updateOutcome_of_read_none sps t sp pl et v today store hWF hKU hread
  | some ex =>
    exact updateOutcome_of_read_some sps t sp pl et v today store ex hWF hKU
      hread

theorem applyEvents_cons (sps : List ScheduledPostRow)
    (t sp pl today : String) (e : String × Int) (rest : List (String × Int))
    (store : AggStore) :
    applyEvents sps t sp pl today (e :: rest) store =
      applyEvents sps t sp pl today rest
        (updatePostAnalytics sps t sp pl e.1 e.2 today store) := rfl

theorem typeSum_nil (t' : String) : typeSum t' [] = 0 := rfl

theorem typeSum_cons (t' : String) (e : String × Int)
    (rest : List (String × Int)) :
    typeSum t' (e :: rest) =
      (if e.1 = t' then e.2 else 0) + typeSum t' rest := by
  unfold typeSum
  by_cases h : e.1 = t' <;> simp [h]

theorem readAggregate_of_filter_nil {t sp pl d : String}
    {rows : List PostAnalyticsRow}
    (h : rows.filter (matchesNaturalKey t sp pl d) = []) :
    readAggregate t sp pl d rows = none := by
  unfold readAggregate singleMatch
  rw [h]

/-- Folding the updater over a list of events for a key that already has
its row: invariants persist and the key row's counters grow by the
per-type sums. -/
theorem applyEvents_outcome (sps : List ScheduledPostRow)
    (t sp pl today : String) (evs : List (String × Int)) :
    ∀ (store : AggStore) (r : PostAnalyticsRow), AggWF store →
    KeyUnique store.rows →
    store.rows.filter (matchesNaturalKey t sp pl today) = [r] →
    ∃ r', (applyEvents sps t sp pl today evs store).rows.filter
        (matchesNaturalKey t sp pl today) = [r'] ∧
      AggWF (applyEvents sps t sp pl today evs store) ∧
      KeyUnique (applyEvents sps t sp pl today evs store).rows ∧
      (∀ t' ∈ eventTypeEnum,
        counterGet t' r' = counterGet t' r + typeSum t' evs) := by
  induction evs with
  | nil =>
    intro store r hWF hKU hkey
    exact ⟨r, hkey, hWF, hKU, fun t' _ => by rw [typeSum_nil]; omega⟩
  | cons e rest ih =>
    intro store r hWF hKU hkey
    obtain ⟨hWF1, hKU1, ⟨r1, hfl1, hcnt1, -, -⟩, -, -⟩ :=
      update_outcome sps t sp pl e.1 e.2 today store hWF hKU
    have hread : readAggregate t sp pl today store.rows = some r :=
      readAggregate_eq_some.mpr hkey
    rw [hread] at hcnt1
    obtain ⟨r', hfl', hWF', hKU', hcnt'⟩ := ih _ r1 hWF1 hKU1 hfl1
    refine ⟨r', hfl', hWF', hKU', ?_⟩
    intro t' ht'
    have h1 := hcnt1 t' ht'
    dsimp only at h1
    have h2 := hcnt' t' ht'
    have hind : (if t' = e.1 then e.2 else 0) =
        (if e.1 = t' then e.2 else 0) := by
      by_cases h : t' = e.1
      · simp [h]
      · rw [if_neg h, if_neg (Ne.symm h)]
    rw [typeSum_cons, h2, h1, hind, add_assoc]

/-- Folding the updater preserves the invariants and stamps every row it
creates with today's date. -/
theorem applyEvents_invariants (sps : List ScheduledPostRow)
    (t sp pl today : String) (evs : List (String × Int)) :
    ∀ store : AggStore, AggWF store → KeyUnique store.rows →
    AggWF (applyEvents sps t sp pl today evs store) ∧
    KeyUnique (applyEvents sps t sp pl today evs store).rows ∧
    (∀ r ∈ (applyEvents sps t sp pl today evs store).rows,
      r ∉ store.rows → r.date = today) := by
  induction evs with
  | nil =>
    intro store hWF hKU
    exact ⟨hWF, hKU, fun r hr hnot => absurd hr hnot⟩
  | cons e rest ih =>
    intro store hWF hKU
    obtain ⟨hWF1, hKU1, -, hdate1, -⟩ :=
      update_outcome sps t sp pl e.1 e.2 today store hWF hKU
    obtain ⟨hWF', hKU', hdate'⟩ := ih _ hWF1 hKU1
    refine ⟨hWF', hKU', ?_⟩
    intro r hr hnot
    by_cases hmem : r ∈ (updatePostAnalytics sps t sp pl e.1 e.2 today
        store).rows
    · exact hdate1 r hmem hnot
    · exact hdate' r hr hmem

/-! ## Claims -/

/-- C1: after every aggregate update, the stored `engagement_rate` of the
updated row equals `100 * (likes+comments+shares) / impressions` rounded
to two decimals and its `click_through_rate` equals `100 * clicks /
impressions` rounded to two decimals, both computed from the
post-increment counters and both exactly `0` when `impressions = 0` —
whether the row was updated in place or created by the first event for
its natural key. -/
theorem c1_derived_rate_correctness (sps : List ScheduledPostRow)
    (t sp pl et : String) (v : Int) (today : String) (store : AggStore)
    (hWF : AggWF store) (hKU : KeyUnique store.rows) :
    ∀ r ∈ (updatePostAnalytics sps t sp pl et v today store).rows,
      matchesNaturalKey t sp pl today r = true →
      r.engagement_rate = specEngagementRate r ∧
      r.click_through_rate = specClickThroughRate r := by
  obtain ⟨-, -, ⟨r', hfl, -, her, hctr⟩, -, -⟩ :=
    update_outcome sps t sp pl et v today store hWF hKU
  intro r hr hmatch
  have hmem : r ∈ (updatePostAnalytics sps t sp pl et v today
      store).rows.filter (matchesNaturalKey t sp pl today) :=
    List.mem_filter.mpr ⟨hr, hmatch⟩
  rw [hfl] at hmem
  rw [List.mem_singleton.mp hmem]
  exact ⟨her, hctr⟩

/-- Witness for C1 at a concrete store and event. -/
theorem c1_derived_rate_correctness_witness :
    AggWF fixtureStore ∧ KeyUnique fixtureStore.rows ∧
    (∀ r ∈ (updatePostAnalytics [] "t1" "sp1" "instagram" "like" 1
        "2026-01-01" fixtureStore).rows,
      matchesNaturalKey "t1" "sp1" "instagram" "2026-01-01" r = true →
      r.engagement_rate = specEngagementRate r ∧
      r.click_through_rate = specClickThroughRate r) :=
  ⟨by decide, by decide,
    c1_derived_rate_correctness [] "t1" "sp1" "instagram" "like" 1
      "2026-01-01" fixtureStore (by decide) (by decide)⟩

/-- C2: folding the updater over any event list for one natural key,
starting from a store with no row for that key, produces a key row whose
six raw counters equal the per-type sums of the event values; the sums —
hence the final counters — are invariant under reordering; and each
single update adds the event's value to exactly the counter matching its
event type, carrying every other counter forward unchanged. -/
theorem c2_counter_additivity (sps : List ScheduledPostRow)
    (t sp pl today : String) (evs : List (String × Int)) (store : AggStore)
    (hWF : AggWF store) (hKU : KeyUnique store.rows)
    (hfresh : store.rows.filter (matchesNaturalKey t sp pl today) = [])
    (hne : evs ≠ []) :
    (∃ r', (applyEvents sps t sp pl today evs store).rows.filter
        (matchesNaturalKey t sp pl today) = [r'] ∧
      ∀ t' ∈ eventTypeEnum, counterGet t' r' = typeSum t' evs) ∧
    (∀ evs' : List (String × Int), evs.Perm evs' →
      ∀ t' : String, typeSum t' evs = typeSum t' evs') ∧
    (∀ (store' : AggStore) (r : PostAnalyticsRow) (et : String) (v : Int),
      AggWF store' → KeyUnique store'.rows →
      store'.rows.filter (matchesNaturalKey t sp pl today) = [r] →
      ∃ r'', (updatePostAnalytics sps t sp pl et v today store').rows.filter
          (matchesNaturalKey t sp pl today) = [r''] ∧
        ∀ t' ∈ eventTypeEnum,
          counterGet t' r'' = counterGet t' r + (if t' = et then v else 0)) := by
  refine ⟨?_, ?_, ?_⟩
  · obtain ⟨e, rest, rfl⟩ := List.exists_cons_of_ne_nil hne
    have hread : readAggregate t sp pl today store.rows = none :=
      readAggregate_of_filter_nil hfresh
    obtain ⟨hWF1, hKU1, ⟨r1, hfl1, hcnt1, -, -⟩, -, -⟩ :=
      update_outcome sps t sp pl e.1 e.2 today store hWF hKU
    rw [hread] at hcnt1
    obtain ⟨r', hfl', -, -, hcnt'⟩ :=
      applyEvents_outcome sps t sp pl today rest _ r1 hWF1 hKU1 hfl1
    refine ⟨r', hfl', ?_⟩
    intro t' ht'
    have h1 := hcnt1 t' ht'
    simp only at h1
    have h2 := hcnt' t' ht'
    rw [typeSum_cons]
    have hind : (if t' = e.1 then e.2 else 0) =
        (if e.1 = t' then e.2 else 0) := by
      by_cases h : t' = e.1
      · simp [h]
      · rw [if_neg h, if_neg (Ne.symm h)]
    rw [h2, h1, hind]
    omega
  · intro evs' hperm t'
    unfold typeSum
    exact List.Perm.sum_eq (List.Perm.map _ (hperm.filter _))
  · intro store' r et v hWF' hKU' hkey
    obtain ⟨-, -, ⟨r'', hfl'', hcnt'', -, -⟩, -, -⟩ :=
      update_outcome sps t sp pl et v today store' hWF' hKU'
    have hread : readAggregate t sp pl today store'.rows = some r :=
      readAggregate_eq_some.mpr hkey
    rw [hread] at hcnt''
    exact ⟨r'', hfl'', hcnt''⟩

/-- Witness for C2 at a concrete event list. -/
theorem c2_counter_additivity_witness :
    AggWF ⟨[], 0⟩ ∧ KeyUnique (AggStore.mk [] 0).rows ∧
    (AggStore.mk [] 0).rows.filter
      (matchesNaturalKey "t1" "sp1" "instagram" "2026-01-01") = [] ∧
    ([("like", 2), ("view", 3)] : List (String × Int)) ≠ [] ∧
    (∃ r', (applyEvents [] "t1" "sp1" "instagram" "2026-01-01"
        [("like", 2), ("view", 3)] ⟨[], 0⟩).rows.filter
        (matchesNaturalKey "t1" "sp1" "instagram" "2026-01-01") = [r'] ∧
      ∀ t' ∈ eventTypeEnum,
        counterGet t' r' = typeSum t' [("like", 2), ("view", 3)]) :=
  ⟨by decide, by decide, by decide, by decide,
    (c2_counter_additivity [] "t1" "sp1" "instagram" "2026-01-01"
      [("like", 2), ("view", 3)] ⟨[], 0⟩ (by decide) (by decide) (by decide)
      (by decide)).1⟩

/-- C3: the claim demands that concurrent events for one natural key never
lose an increment, but the updater is a non-atomic read-then-write round
trip. With one aggregate row holding `likes = 0`, two concurrent
`like`(1) updaters that both read before either writes leave `likes = 1`,
while the sequential (atomic) application of the same two events leaves
`likes = 2`. -/
theorem c3_lost_update_under_interleaving :
    interleavedS2.rows.map (·.likes) = [1] ∧
    sequentialS2.rows.map (·.likes) = [2] := by decide

/-- C4: running any nonempty event list for one natural key keeps the
per-key uniqueness invariant, leaves exactly one row carrying that key —
created lazily by the first event, updated in place thereafter — whose
`date` is the ingestion-time UTC calendar date, and stamps that date on
every row the updater created. -/
theorem c4_idempotent_key_creation (sps : List ScheduledPostRow)
    (t sp pl today : String) (evs : List (String × Int)) (store : AggStore)
    (hWF : AggWF store) (hKU : KeyUnique store.rows) (hne : evs ≠ []) :
    KeyUnique (applyEvents sps t sp pl today evs store).rows ∧
    (∃ r', (applyEvents sps t sp pl today evs store).rows.filter
        (matchesNaturalKey t sp pl today) = [r'] ∧ r'.date = today) ∧
    (∀ r ∈ (applyEvents sps t sp pl today evs store).rows,
      r ∉ store.rows → r.date = today) := by
  obtain ⟨e, rest, rfl⟩ := List.exists_cons_of_ne_nil hne
  obtain ⟨hWF1, hKU1, ⟨r1, hfl1, -, -, -⟩, -, -⟩ :=
    update_outcome sps t sp pl e.1 e.2 today store hWF hKU
  obtain ⟨r', hfl', -, hKU', -⟩ :=
    applyEvents_outcome sps t sp pl today rest _ r1 hWF1 hKU1 hfl1
  obtain ⟨-, -, hdate⟩ :=
    applyEvents_invariants sps t sp pl today (e :: rest) store hWF hKU
  refine ⟨hKU', ⟨r', hfl', ?_⟩, hdate⟩
  have hmem : r' ∈ (applyEvents sps t sp pl today (e :: rest) store).rows.filter
      (matchesNaturalKey t sp pl today) := by
    rw [applyEvents_cons, hfl']
    exact List.mem_singleton_self r'
  exact (matchesNaturalKey_iff.mp (List.of_mem_filter hmem)).2.2.2

/-- Witness for C4 at a concrete event list. -/
theorem c4_idempotent_key_creation_witness :
    AggWF ⟨[], 0⟩ ∧ KeyUnique (AggStore.mk [] 0).rows ∧
    ([("impression", 1), ("like", 1)] : List (String × Int)) ≠ [] ∧
    (∃ r', (applyEvents [] "t1" "sp1" "instagram" "2026-01-01"
        [("impression", 1), ("like", 1)] ⟨[], 0⟩).rows.filter
        (matchesNaturalKey "t1" "sp1" "instagram" "2026-01-01") = [r'] ∧
      r'.date = "2026-01-01") :=
  ⟨by decide, by decide, by decide,
    (c4_idempotent_key_creation [] "t1" "sp1" "instagram" "2026-01-01"
      [("impression", 1), ("like", 1)] ⟨[], 0⟩ (by decide) (by decide)
      (by decide)).2.1⟩

theorem overviewRowFilter_tenant {f : OverviewFilters} {r : PostAnalyticsRow}
    (h : overviewRowFilter f r = true) : r.tenant_id = f.tenantId := by
  simp only [overviewRowFilter, Bool.and_eq_true, beq_iff_eq] at h
  exact h.1.1.1

theorem topPostsRowFilter_tenant {p : TopPostsParams} {r : PostAnalyticsRow}
    (h : topPostsRowFilter p r = true) : r.tenant_id = p.tenantId := by
  simp only [topPostsRowFilter, Bool.and_eq_true, beq_iff_eq] at h
  exact h.1.1.1

theorem overviewQuery_tenant_restrict (f : OverviewFilters)
    (rows : List PostAnalyticsRow) :
    overviewQuery f (rows.filter (fun r => r.tenant_id == f.tenantId)) =
      overviewQuery f rows := by
  unfold overviewQuery
  rw [List.filter_filter]
  congr 1
  apply List.filter_congr
  intro a _
  cases h : overviewRowFilter f a
  · simp
  · simp [overviewRowFilter_tenant h]

theorem topPostsFilter_tenant_restrict (p : TopPostsParams)
    (rows : List PostAnalyticsRow) :
    (rows.filter (fun r => r.tenant_id == p.tenantId)).filter
        (topPostsRowFilter p) = rows.filter (topPostsRowFilter p) := by
  rw [List.filter_filter]
  apply List.filter_congr
  intro a _
  cases h : topPostsRowFilter p a
  · simp
  · simp [topPostsRowFilter_tenant h]

theorem getAnalyticsOverview_congr {f : OverviewFilters}
    {rows₁ rows₂ : List PostAnalyticsRow}
    (h : overviewQuery f rows₁ = overviewQuery f rows₂) :
    getAnalyticsOverview f rows₁ = getAnalyticsOverview f rows₂ := by
  unfold getAnalyticsOverview
  simp only [h]

theorem getTopPosts_congr {p : TopPostsParams}
    {rows₁ rows₂ : List PostAnalyticsRow} {cis : List ContentItemRow}
    {sps : List ScheduledPostRow}
    (h : rows₁.filter (topPostsRowFilter p) = rows₂.filter
      (topPostsRowFilter p)) :
    getTopPosts p rows₁ cis sps = getTopPosts p rows₂ cis sps := by
  unfold getTopPosts topPostsQuery
  rw [h]

/-- C5: both read endpoints are tenant-isolated: every record they return
is keyed to the requested tenant, and their output is unchanged by
deleting every row of other tenants — equivalently, by the presence or
absence of any other tenant's rows, whatever their `scheduled_post_id`s. -/
theorem c5_tenant_isolation (f : OverviewFilters) (p : TopPostsParams)
    (rows rowsB : List PostAnalyticsRow) (cis : List ContentItemRow)
    (sps : List ScheduledPostRow) :
    (∀ r ∈ (getAnalyticsOverview f rows).records, r.tenant_id = f.tenantId) ∧
    getAnalyticsOverview f rows =
      getAnalyticsOverview f (rows.filter (fun r =>
        r.tenant_id == f.tenantId)) ∧
    ((∀ r ∈ rowsB, r.tenant_id ≠ f.tenantId) →
      getAnalyticsOverview f (rows ++ rowsB) =
        getAnalyticsOverview f rows) ∧
    (∀ r ∈ topPostsQuery p rows, r.tenant_id = p.tenantId) ∧
    getTopPosts p rows cis sps =
      getTopPosts p (rows.filter (fun r => r.tenant_id == p.tenantId))
        cis sps ∧
    ((∀ r ∈ rowsB, r.tenant_id ≠ p.tenantId) →
      getTopPosts p (rows ++ rowsB) cis sps = getTopPosts p rows cis sps) := by
  refine ⟨?_, ?_, ?_, ?_, ?_, ?_⟩
  · intro r hr
    have hr' : r ∈ rows.filter (overviewRowFilter f) :=
      ((List.perm_insertionSort dateGe _).mem_iff).mp hr
    exact overviewRowFilter_tenant (List.of_mem_filter hr')
  · exact (getAnalyticsOverview_congr
      (overviewQuery_tenant_restrict f rows)).symm
  · intro hB
    apply getAnalyticsOverview_congr
    unfold overviewQuery
    rw [List.filter_append]
    have : rowsB.filter (overviewRowFilter f) = [] := by
      apply List.filter_eq_nil_iff.mpr
      intro a ha hfa
      exact hB a ha (overviewRowFilter_tenant hfa)
    rw [this, List.append_nil]
  · intro r hr
    have hr₁ : r ∈ (rows.filter (topPostsRowFilter p)).insertionSort
        (metricGe (chooseOrderBy p.metric)) := List.take_subset _ _ hr
    have hr₂ : r ∈ rows.filter (topPostsRowFilter p) :=
      ((List.perm_insertionSort _ _).mem_iff).mp hr₁
    exact topPostsRowFilter_tenant (List.of_mem_filter hr₂)
  · exact (getTopPosts_congr (topPostsFilter_tenant_restrict p rows)).symm
  · intro hB
    apply getTopPosts_congr
    rw [List.filter_append]
    have : rowsB.filter (topPostsRowFilter p) = [] := by
      apply List.filter_eq_nil_iff.mpr
      intro a ha hfa
      exact hB a ha (topPostsRowFilter_tenant hfa)
    rw [this, List.append_nil]

/-- Witness for C5: adding a `t2` row changes neither endpoint's answer
for `t1`. -/
theorem c5_tenant_isolation_witness :
    (∀ r ∈ foreignRows, r.tenant_id ≠ overviewFixtureFilters.tenantId) ∧
    (∀ r ∈ foreignRows, r.tenant_id ≠ topPostsFixtureParams.tenantId) ∧
    getAnalyticsOverview overviewFixtureFilters
        (meanFixtureRows ++ foreignRows) =
      getAnalyticsOverview overviewFixtureFilters meanFixtureRows ∧
    getTopPosts topPostsFixtureParams (topPostsFixtureRows ++ foreignRows)
        [] [] = getTopPosts topPostsFixtureParams topPostsFixtureRows [] [] :=
  ⟨by decide, by decide,
    (c5_tenant_isolation overviewFixtureFilters topPostsFixtureParams
      meanFixtureRows foreignRows [] []).2.2.1 (by decide),
    (c5_tenant_isolation overviewFixtureFilters topPostsFixtureParams
      topPostsFixtureRows foreignRows [] []).2.2.2.2.2 (by decide)⟩

theorem foldl_add_map (g : PostAnalyticsRow → ℚ) :
    ∀ (l : List PostAnalyticsRow) (init : ℚ),
      l.foldl (fun s r => s + g r) init = init + (l.map g).sum := by
  intro l
  induction l with
  | nil => intro init; simp
  | cons a l ih =>
    intro init
    simp [ih, add_assoc]

/-- C7: for a nonempty match set, both returned averages are the
two-decimal rounding of the arithmetic mean of the stored per-row rates —
and on a concrete store with uneven impression volumes the returned
average differs from the impression-weighted recomputation
`100 * sum(likes+comments+shares) / sum(impressions)`. -/
theorem c7_averages_are_row_means (f : OverviewFilters)
    (rows : List PostAnalyticsRow)
    (hne : rows.filter (overviewRowFilter f) ≠ []) :
    ((getAnalyticsOverview f rows).averages.engagement_rate =
      round2 (((rows.filter (overviewRowFilter f)).map
          (·.engagement_rate)).sum /
        ((rows.filter (overviewRowFilter f)).length : ℚ)) ∧
     (getAnalyticsOverview f rows).averages.click_through_rate =
      round2 (((rows.filter (overviewRowFilter f)).map
          (·.click_through_rate)).sum /
        ((rows.filter (overviewRowFilter f)).length : ℚ))) ∧
    (getAnalyticsOverview overviewFixtureFilters
        meanFixtureRows).averages.engagement_rate ≠
      round2 (100 * ((meanFixtureRows.map (fun r =>
          ((r.likes + r.comments + r.shares : Int) : ℚ))).sum) /
        ((meanFixtureRows.map (fun r =>
          ((r.impressions : Int) : ℚ))).sum)) := by
  have hgen : ∀ (f' : OverviewFilters) (rows' : List PostAnalyticsRow),
      rows'.filter (overviewRowFilter f') ≠ [] →
      (getAnalyticsOverview f' rows').averages.engagement_rate =
        round2 (((rows'.filter (overviewRowFilter f')).map
            (·.engagement_rate)).sum /
          ((rows'.filter (overviewRowFilter f')).length : ℚ)) ∧
      (getAnalyticsOverview f' rows').averages.click_through_rate =
        round2 (((rows'.filter (overviewRowFilter f')).map
            (·.click_through_rate)).sum /
          ((rows'.filter (overviewRowFilter f')).length : ℚ)) := by
    intro f' rows' hne'
    have hperm : List.Perm (overviewQuery f' rows')
        (rows'.filter (overviewRowFilter f')) :=
      List.perm_insertionSort dateGe _
    have hlen := hperm.length_eq
    have hlenpos : 0 < (overviewQuery f' rows').length := by
      rw [hlen]
      exact List.length_pos.mpr hne'
    constructor
    · have h1 : (getAnalyticsOverview f' rows').averages.engagement_rate =
          round2 (if (overviewQuery f' rows').length > 0 then
            (overviewQuery f' rows').foldl
                (fun sum r => sum + r.engagement_rate) 0 /
              ((overviewQuery f' rows').length : ℚ)
          else 0) := rfl
      rw [h1, if_pos hlenpos, foldl_add_map, zero_add,
        List.Perm.sum_eq (hperm.map (·.engagement_rate)), hlen]
    · have h1 : (getAnalyticsOverview f' rows').averages.click_through_rate =
          round2 (if (overviewQuery f' rows').length > 0 then
            (overviewQuery f' rows').foldl
                (fun sum r => sum + r.click_through_rate) 0 /
              ((overviewQuery f' rows').length : ℚ)
          else 0) := rfl
      rw [h1, if_pos hlenpos, foldl_add_map, zero_add,
        List.Perm.sum_eq (hperm.map (·.click_through_rate)), hlen]
  refine ⟨hgen f rows hne, ?_⟩
  have hLHS := (hgen overviewFixtureFilters meanFixtureRows (by decide)).1
  rw [hLHS]
  norm_num [meanFixtureRows, queryRow, overviewRowFilter,
    overviewFixtureFilters, round2]

/-- Witness for C7 at a concrete store. -/
theorem c7_averages_are_row_means_witness :
    meanFixtureRows.filter (overviewRowFilter overviewFixtureFilters) ≠ [] ∧
    (getAnalyticsOverview overviewFixtureFilters
        meanFixtureRows).averages.engagement_rate =
      round2 (((meanFixtureRows.filter
          (overviewRowFilter overviewFixtureFilters)).map
          (·.engagement_rate)).sum /
        ((meanFixtureRows.filter
          (overviewRowFilter overviewFixtureFilters)).length : ℚ)) :=
  ⟨by decide, (c7_averages_are_row_means overviewFixtureFilters
    meanFixtureRows (by decide)).1.1⟩

/-- C8: the top-posts ranking sorts the matched rows descending by the
requested metric and truncates to `limit` (sortedness, length bound,
membership, and the property that everything left out ranks no higher
than anything returned); an unknown metric string falls back to
`engagement_rate`; and on three rows with views 50, 200, 10 and limit 2
the result is the 200-row then the 50-row. -/
theorem c8_top_posts_ranking (p : TopPostsParams)
    (rows : List PostAnalyticsRow) (cis : List ContentItemRow)
    (sps : List ScheduledPostRow) :
    getTopPosts topPostsFixtureParams topPostsFixtureRows [] [] =
      [formatPost [] [] (queryRow 1 200 0 0 0),
       formatPost [] [] (queryRow 0 50 0 0 0)] ∧
    (validMetrics.contains p.metric = false →
      getTopPosts p rows cis sps =
        getTopPosts { p with metric := "engagement_rate" } rows cis sps) ∧
    List.Sorted (metricGe (chooseOrderBy p.metric)) (topPostsQuery p rows) ∧
    (topPostsQuery p rows).length ≤ p.limit ∧
    (∀ r ∈ topPostsQuery p rows, r ∈ rows.filter (topPostsRowFilter p)) ∧
    (∀ x ∈ topPostsQuery p rows, ∀ y ∈ rows.filter (topPostsRowFilter p),
      y ∉ topPostsQuery p rows →
      metricValue (chooseOrderBy p.metric) y ≤
        metricValue (chooseOrderBy p.metric) x) := by
  have hsorted : List.Sorted (metricGe (chooseOrderBy p.metric))
      ((rows.filter (topPostsRowFilter p)).insertionSort
        (metricGe (chooseOrderBy p.metric))) :=
    List.sorted_insertionSort _ _
  refine ⟨?_, ?_, ?_, ?_, ?_, ?_⟩
  · decide
  · intro h
    have hmem : p.metric ∉ validMetrics := by simpa using h
    have hord : chooseOrderBy p.metric = "engagement_rate" := by
      simp [chooseOrderBy, hmem]
    unfold getTopPosts topPostsQuery
    rw [hord]
    rfl
  · exact List.Pairwise.sublist (List.take_sublist _ _) hsorted
  · exact List.length_take_le _ _
  · intro r hr
    exact ((List.perm_insertionSort _ _).mem_iff).mp (List.take_subset _ _ hr)
  · intro x hx y hy hynot
    have hyL : y ∈ (rows.filter (topPostsRowFilter p)).insertionSort
        (metricGe (chooseOrderBy p.metric)) :=
      ((List.perm_insertionSort _ _).mem_iff).mpr hy
    rw [← List.take_append_drop p.limit ((rows.filter
      (topPostsRowFilter p)).insertionSort
        (metricGe (chooseOrderBy p.metric)))] at hsorted hyL
    have hydrop : y ∈ ((rows.filter (topPostsRowFilter p)).insertionSort
        (metricGe (chooseOrderBy p.metric))).drop p.limit := by
      rcases List.mem_append.mp hyL with h | h
      · exact absurd h hynot
      · exact h
    exact (List.pairwise_append.mp hsorted).2.2 x hx y hydrop

/-- Witness for C8: the fallback clause applied to the unknown metric
string `bogus`. -/
theorem c8_top_posts_ranking_witness :
    validMetrics.contains "bogus" = false ∧
    getTopPosts { topPostsFixtureParams with metric := "bogus" }
        topPostsFixtureRows [] [] =
      getTopPosts { topPostsFixtureParams with metric := "engagement_rate" }
        topPostsFixtureRows [] [] :=
  ⟨by decide,
    (c8_top_posts_ranking { topPostsFixtureParams with metric := "bogus" }
      topPostsFixtureRows [] []).2.1 (by decide)⟩

theorem eventSchemaSafeParse_isSome (b : RawEvent) :
    (eventSchemaSafeParse b).isSome =
      (isUuid b.tenantId &&
        (match b.contentItemId with | none => true | some s => isUuid s) &&
        (match b.scheduledPostId with | none => true | some s => isUuid s) &&
        eventTypeEnum.contains b.eventType) := by
  unfold eventSchemaSafeParse
  split
  · next hcond => rw [hcond]; rfl
  · next hcond =>
    rw [Bool.not_eq_true] at hcond
    rw [hcond]
    rfl

/-- C6 (amended): `eventSchema.safeParse` succeeds exactly when `tenantId`
(and `contentItemId`/`scheduledPostId` when present) are shaped like
uuids and `eventType` belongs to the closed enum — `platform` and
`eventValue` are never inspected — and a failed parse returns 400 with
the state unchanged. -/
theorem c6_validation_boundary (b : RawEvent) :
    ((eventSchemaSafeParse b).isSome = true ↔
      (isUuid b.tenantId = true ∧
        (∀ u, b.contentItemId = some u → isUuid u = true) ∧
        (∀ u, b.scheduledPostId = some u → isUuid u = true) ∧
        b.eventType ∈ eventTypeEnum)) ∧
    ((eventSchemaSafeParse b).isSome = true →
      ∀ pf : String, (eventSchemaSafeParse { b with platform := pf }).isSome
        = true) ∧
    (eventSchemaSafeParse b = none →
      ∀ (userId today : String) (s : AppState),
        postAnalyticsEvent userId today b s = (s, .invalidRequest)) := by
  refine ⟨?_, ?_, ?_⟩
  · rw [eventSchemaSafeParse_isSome]
    simp only [Bool.and_eq_true]
    constructor
    · rintro ⟨⟨⟨h1, h2⟩, h3⟩, h4⟩
      refine ⟨h1, ?_, ?_, ?_⟩
      · intro u hu
        rw [hu] at h2
        exact h2
      · intro u hu
        rw [hu] at h3
        exact h3
      · simpa [List.contains] using h4
    · rintro ⟨h1, h2, h3, h4⟩
      refine ⟨⟨⟨h1, ?_⟩, ?_⟩, ?_⟩
      · cases hci : b.contentItemId with
        | none => rfl
        | some u => exact h2 u hci
      · cases hsi : b.scheduledPostId with
        | none => rfl
        | some u => exact h3 u hsi
      · simpa [List.contains] using h4
  · intro h pf
    rw [eventSchemaSafeParse_isSome] at h ⊢
    exact h
  · intro h userId today s
    unfold postAnalyticsEvent
    rw [h]

/-- C6 (counterexample): a body whose `platform` is outside the closed
platform set and whose value is `0` — malformed according to the claim —
is accepted by the schema, recorded, and answered with success, not with
a validation error. -/
theorem c6_unknown_platform_and_zero_value_accepted :
    roguePlatformBody.platform ∉ knownPlatforms ∧
    roguePlatformBody.eventValue = some 0 ∧
    (eventSchemaSafeParse roguePlatformBody).isSome = true ∧
    (postAnalyticsEvent "user-1" "2026-01-01" roguePlatformBody
      fixtureState).2 ≠ .invalidRequest ∧
    (postAnalyticsEvent "user-1" "2026-01-01" roguePlatformBody
      fixtureState).1.analytics_events ≠ [] := by decide

/-- Witness for C6 at a body with an unknown `eventType`: the parse
fails and the handler rejects without touching the state. -/
theorem c6_validation_boundary_witness :
    eventSchemaSafeParse badTypeBody = none ∧
    postAnalyticsEvent "user-1" "2026-01-01" badTypeBody fixtureState =
      (fixtureState, .invalidRequest) :=
  ⟨by decide, (c6_validation_boundary badTypeBody).2.2 (by decide)
    "user-1" "2026-01-01" fixtureState⟩

/-- C9: a valid event without `scheduledPostId` is appended to the event
log and answered with success, while the aggregate store — hence every
overview and top-posts answer — is untouched. -/
theorem c9_orphan_event_recorded_not_aggregated (userId today : String)
    (body : RawEvent) (s : AppState) (d : ParsedEvent) (tu : String × String)
    (hparse : eventSchemaSafeParse body = some d)
    (hnosp : d.scheduledPostId = none)
    (hmem : singleMatch (fun tu => tu.1 == d.tenantId && tu.2 == userId)
      s.tenant_users = some tu) :
    (postAnalyticsEvent userId today body s).1.analytics_events =
      s.analytics_events ++ [insertedEventRow s d] ∧
    (postAnalyticsEvent userId today body s).1.post_analytics =
      s.post_analytics ∧
    (postAnalyticsEvent userId today body s).2 =
      .success (insertedEventRow s d) ∧
    (∀ f : OverviewFilters,
      getAnalyticsOverview f
          (postAnalyticsEvent userId today body s).1.post_analytics.rows =
        getAnalyticsOverview f s.post_analytics.rows) ∧
    (∀ (p : TopPostsParams) (cis : List ContentItemRow)
        (sps : List ScheduledPostRow),
      getTopPosts p
          (postAnalyticsEvent userId today body s).1.post_analytics.rows
          cis sps =
        getTopPosts p s.post_analytics.rows cis sps) := by
  have hpost : postAnalyticsEvent userId today body s =
      ({ s with
          analytics_events := s.analytics_events ++ [insertedEventRow s d]
          nextEventId := s.nextEventId + 1 },
        .success (insertedEventRow s d)) := by
    unfold postAnalyticsEvent
    rw [hparse]
    simp only [hmem, hnosp, insertedEventRow]
  rw [hpost]
  exact ⟨rfl, rfl, rfl, fun f => rfl, fun p cis sps => rfl⟩

/-- Witness for C9 at a concrete orphan event. -/
theorem c9_orphan_event_recorded_not_aggregated_witness :
    eventSchemaSafeParse orphanEventBody = some orphanParsed ∧
    orphanParsed.scheduledPostId = none ∧
    (postAnalyticsEvent "user-1" "2026-01-01" orphanEventBody
        fixtureState).1.analytics_events =
      fixtureState.analytics_events ++
        [insertedEventRow fixtureState orphanParsed] ∧
    (postAnalyticsEvent "user-1" "2026-01-01" orphanEventBody
      fixtureState).1.post_analytics = fixtureState.post_analytics :=
  ⟨by decide, by decide,
    (c9_orphan_event_recorded_not_aggregated "user-1" "2026-01-01"
      orphanEventBody fixtureState orphanParsed
      ("123e4567-e89b-12d3-a456-426614174000", "user-1") (by decide)
      (by decide) (by decide)).1,
    (c9_orphan_event_recorded_not_aggregated "user-1" "2026-01-01"
      orphanEventBody fixtureState orphanParsed
      ("123e4567-e89b-12d3-a456-426614174000", "user-1") (by decide)
      (by decide) (by decide)).2.1⟩

/-- C10: when the filters match no aggregate rows, the overview returns
all-zero totals, both averages exactly `0`, an empty platform breakdown
and an empty record list. -/
theorem c10_empty_match_zero_overview (f : OverviewFilters)
    (rows : List PostAnalyticsRow)
    (hempty : rows.filter (overviewRowFilter f) = []) :
    getAnalyticsOverview f rows =
      { totals := zeroTotals
        averages := { engagement_rate := 0, click_through_rate := 0 }
        by_platform := []
        records := [] } := by
  have hq : overviewQuery f rows = [] := by
    unfold overviewQuery
    rw [hempty]
    rfl
  simp [getAnalyticsOverview, hq, round2_zero, zeroTotals]

/-- Witness for C10: a tenant with no rows gets the all-zero overview. -/
theorem c10_empty_match_zero_overview_witness :
    meanFixtureRows.filter (overviewRowFilter absentTenantFilters) = [] ∧
    getAnalyticsOverview absentTenantFilters meanFixtureRows =
      { totals := zeroTotals
        averages := { engagement_rate := 0, click_through_rate := 0 }
        by_platform := []
        records := [] } :=
  ⟨by decide,
    c10_empty_match_zero_overview absentTenantFilters meanFixtureRows
      (by decide)⟩

end AIMarketing
